import Mathlib

/- Verification development for the gh-sql storage adapter.

   The definitions below are a shallow embedding of the storage adapter in
   src/storage.rs and of the GraphQL transport wrapper in src/gh.rs.
   SQL values, schemas and errors mirror the gluesql library types that the
   adapter manipulates (the adapter is generic over the SQL engine, which is
   an external collaborator); remote GraphQL calls are represented by an
   oracle function together with an explicit transcript of the calls issued,
   and the response shapes of the fixed query documents are represented by
   plain structures. -/

namespace GhSql

/- gluesql value model (the subset the adapter manipulates).  Floating point
   numbers are represented by rationals: no property proved here depends on
   rounding.  A gluesql Date is represented by its rendered YYYY-MM-DD form,
   which is exactly what the adapter produces from it. -/
inductive Value where
  | Null
  | Bool (b : Bool)
  | I64 (n : Int)
  | F64 (q : Rat)
  | Str (s : String)
  | Date (d : String)
  | List (vs : List Value)

/- structural equality, mirroring the derived PartialEq on gluesql Value -/
mutual
def valueBeq : Value → Value → Bool
  | .Null, .Null => true
  | .Bool a, .Bool b => a == b
  | .I64 a, .I64 b => a == b
  | .F64 a, .F64 b => a == b
  | .Str a, .Str b => a == b
  | .Date a, .Date b => a == b
  | .List as, .List bs => valueListBeq as bs
  | _, _ => false
def valueListBeq : List Value → List Value → Bool
  | [], [] => true
  | a :: as, b :: bs => valueBeq a b && valueListBeq as bs
  | _, _ => false
end

instance : BEq Value := ⟨valueBeq⟩

/- Value::is_null -/
def is_null : Value → Bool
  | .Null => true
  | _ => false

/- a row is the ordered list of column values, as in gluesql Row -/
abbrev Row := List Value

inductive DataType where
  | Text
  | Int
  | List
  | Date
  | Float
  | Boolean
  deriving DecidableEq

inductive ColumnOption where
  | Null
  deriving DecidableEq

structure ColumnDef where
  name : String
  data_type : DataType
  options : List ColumnOption
  deriving DecidableEq

structure Schema where
  table_name : String
  column_defs : List ColumnDef
  indexes : List String
  deriving DecidableEq

/- field metadata model, storage.rs lines 16-75 -/

structure FieldOption where
  id : String
  name : String
  deriving DecidableEq

structure FieldIteration where
  id : String
  title : String
  duration : Int
  start_date : String
  deriving DecidableEq

inductive FieldType where
  | ASSIGNEES
  | DATE
  | LABELS
  | LINKED_PULL_REQUESTS
  | MILESTONE
  | NUMBER
  | REPOSITORY
  | REVIEWERS
  | TEXT
  | TITLE
  | TRACKED_BY
  | TRACKS
  | Other (s : String)
  deriving DecidableEq

/- FieldType::as_sql_type, storage.rs lines 53-63 -/
def as_sql_type : FieldType → Option DataType
  | .DATE => some .Date
  | .NUMBER => some .Float
  | .TEXT => some .Text
  | .TITLE => some .Text
  | _ => none

/- the Debug rendering of FieldType, used in the readonly-column message for
   unsupported field types -/
def fieldTypeDebug : FieldType → String
  | .ASSIGNEES => "ASSIGNEES"
  | .DATE => "DATE"
  | .LABELS => "LABELS"
  | .LINKED_PULL_REQUESTS => "LINKED_PULL_REQUESTS"
  | .MILESTONE => "MILESTONE"
  | .NUMBER => "NUMBER"
  | .REPOSITORY => "REPOSITORY"
  | .REVIEWERS => "REVIEWERS"
  | .TEXT => "TEXT"
  | .TITLE => "TITLE"
  | .TRACKED_BY => "TRACKED_BY"
  | .TRACKS => "TRACKS"
  | .Other s => "Other(\"" ++ s ++ "\")"

inductive FieldKind where
  | Normal (t : FieldType)
  | SingleSelect (options : List FieldOption)
  | Iteration (duration : Int) (start_day : Int)
      (iterations : List FieldIteration) (completed_iterations : List FieldIteration)

structure Field where
  id : String
  name : String
  kind : FieldKind

structure Cache where
  project_id : String
  fields : List Field
  items : List (String × Row)

/- Cache::items_schema, storage.rs lines 90-140: six fixed reserved columns
   followed by one nullable Text column per custom field -/
def Cache.items_schema (c : Cache) : Schema :=
  let reserved_column_defs : List ColumnDef :=
    [ ⟨"id", .Text, []⟩,
      ⟨"Repository", .Text, []⟩,
      ⟨"Issue", .Int, []⟩,
      ⟨"Title", .Text, []⟩,
      ⟨"Assignees", .List, []⟩,
      ⟨"Labels", .List, []⟩ ]
  let field_column_defs : List ColumnDef :=
    c.fields.map (fun field => ⟨field.name, .Text, [ColumnOption.Null]⟩)
  ⟨"items", reserved_column_defs ++ field_column_defs, []⟩

/- ProjectNextStorage::iterations_schema, storage.rs lines 678-716 -/
def iterations_schema : Schema :=
  ⟨"iterations",
    [ ⟨"field_id", .Text, []⟩,
      ⟨"id", .Text, []⟩,
      ⟨"title", .Text, []⟩,
      ⟨"start_date", .Text, []⟩,
      ⟨"duration", .Int, []⟩,
      ⟨"is_completed", .Boolean, []⟩ ],
    []⟩

/- ProjectNextStorage::options_schema, storage.rs lines 718-741 -/
def options_schema : Schema :=
  ⟨"options",
    [ ⟨"field_id", .Text, []⟩,
      ⟨"id", .Text, []⟩,
      ⟨"name", .Text, []⟩ ],
    []⟩

/- field metadata fetch, storage.rs list_fields lines 257-409.  A FieldNode is
   one node of the remote field-list response (the three GraphQL variants),
   already shorn of transport concerns; the data_type of a plain field node is
   carried as FieldType (the From conversion at lines 306-327 is a bijection on
   the variants that can reach the plain-field branch). -/
inductive FieldNode where
  | NormalNode (id : String) (name : String) (data_type : FieldType)
  | IterationNode (id : String) (name : String) (duration : Int) (start_day : Int)
      (iterations : List FieldIteration) (completed_iterations : List FieldIteration)
  | SingleSelectNode (id : String) (name : String) (options : List FieldOption)

/- storage.rs lines 349-357 -/
def reserved_names : List String :=
  ["Title", "Labels", "Milestone", "Assignees", "Linked Pull Requests", "Reviewers", "Repository"]

/- the filter_map over field nodes, storage.rs lines 358-407 -/
def fieldsOfNodes (nodes : List FieldNode) : List Field :=
  nodes.filterMap fun node =>
    match node with
    | .NormalNode id name data_type =>
        if reserved_names.any (fun rname => rname == name) then
          none
        else
          some ⟨id, name, .Normal data_type⟩
    | .IterationNode id name duration start_day iterations completed_iterations =>
        some ⟨id, name, .Iteration duration start_day iterations completed_iterations⟩
    | .SingleSelectNode id name options =>
        some ⟨id, name, .SingleSelect options⟩

/- item fetch, storage.rs scan_items lines 411-676 -/

/- one reviewer node of a reviewer field value (Team, User, or some other
   actor kind whose name is not exposed) -/
inductive ReviewerNode where
  | Team (name : String)
  | User (login : String)
  | Other

/- ReviewerNodes::name, storage.rs lines 579-587 -/
def reviewerName : ReviewerNode → Option String
  | .Team name => some name
  | .User login => some login
  | .Other => none

/- one field-value node attached to a fetched item (the eleven GraphQL
   variants of ListItemsNodeOnProjectV2ItemsNodesFieldValuesNodes); each
   carries the id of the field it belongs to -/
inductive ItemFieldValue where
  | DateValue (field_id : String) (date : Option String)
  | IterationValue (field_id : String) (title : String)
  | LabelValue (field_id : String) (labels : Option (List String))
  | MilestoneValue (field_id : String) (milestone : Option String)
  | NumberValue (field_id : String) (number : Option Rat)
  | PullRequestValue (field_id : String) (pull_requests : Option (List String))
  | RepositoryValue (field_id : String) (repository : Option String)
  | ReviewerValue (field_id : String) (reviewers : Option (List ReviewerNode))
  | SingleSelectValue (field_id : String) (name : Option String)
  | TextValue (field_id : String) (text : Option String)
  | UserValue (field_id : String) (users : Option (List String))

/- field().id(), storage.rs lines 496-511 and 570-578 -/
def fieldIdOf : ItemFieldValue → String
  | .DateValue fid _ => fid
  | .IterationValue fid _ => fid
  | .LabelValue fid _ => fid
  | .MilestoneValue fid _ => fid
  | .NumberValue fid _ => fid
  | .PullRequestValue fid _ => fid
  | .RepositoryValue fid _ => fid
  | .ReviewerValue fid _ => fid
  | .SingleSelectValue fid _ => fid
  | .TextValue fid _ => fid
  | .UserValue fid _ => fid

/- as_sql_value, storage.rs lines 512-554.  The outer Option is none exactly
   on the two variants the source marks unreachable there (iteration and
   single-select values are never rendered through as_sql_value); the inner
   Option is the Rust Option return value, none meaning an unset value. -/
def as_sql_value : ItemFieldValue → Option (Option Value)
  | .DateValue _ date => some (date.map Value.Str)
  | .IterationValue _ _ => none
  | .LabelValue _ labels =>
      some (labels.bind fun ns =>
        if ns.isEmpty then none else some (Value.List (ns.map Value.Str)))
  | .MilestoneValue _ milestone => some (milestone.map Value.Str)
  | .NumberValue _ number => some (number.map Value.F64)
  | .PullRequestValue _ pull_requests =>
      some (pull_requests.bind fun ts =>
        if ts.isEmpty then none else some (Value.List (ts.map Value.Str)))
  | .RepositoryValue _ repository => some (repository.map Value.Str)
  | .ReviewerValue _ reviewers =>
      some (reviewers.bind fun rs =>
        let ns := rs.filterMap reviewerName
        if ns.isEmpty then none else some (Value.List (ns.map Value.Str)))
  | .SingleSelectValue _ _ => none
  | .TextValue _ text => some (text.map Value.Str)
  | .UserValue _ users =>
      some (users.bind fun ls =>
        if ls.isEmpty then none else some (Value.List (ls.map Value.Str)))

/- as_single_select, storage.rs lines 555-561: some when the node is a
   single-select value (carrying its optional name), none otherwise -/
def as_single_select : ItemFieldValue → Option (Option String)
  | .SingleSelectValue _ name => some name
  | _ => none

/- as_iteration, storage.rs lines 562-568, projected to the title the row
   builder reads from it -/
def as_iteration : ItemFieldValue → Option String
  | .IterationValue _ title => some title
  | _ => none

/- the per-field cell of an item row, storage.rs lines 629-670.  The result
   is none exactly where the source would panic (an unwrap on a field value
   node whose variant does not match the field kind); some Value.Null is the
   Null cell. -/
def fieldCell (field_values : List ItemFieldValue) (field : Field) : Option Value :=
  match field_values.find? (fun value => fieldIdOf value == field.id) with
  | some value =>
    match field.kind with
    | .Normal _ =>
        match as_sql_value value with
        | some (some v) => some v
        | some none => some Value.Null
        | none => none
    | .SingleSelect _ =>
        match as_single_select value with
        | some (some opt) => some (Value.Str opt)
        | some none => some Value.Null
        | none => none
    | .Iteration _ _ iterations completed_iterations =>
        match as_iteration value with
        | some title =>
            match (iterations ++ completed_iterations).find?
                (fun iter => iter.title == title) with
            | some iter => some (Value.Str iter.title)
            | none => some (Value.Str "Unknown")
        | none => none
  | none => some Value.Null

/- item content, storage.rs lines 417-495 -/
structure IssueContent where
  title : String
  name_with_owner : String
  number : Int
  assignees : List String
  labels : List String

structure DraftContent where
  title : String
  assignees : List String

inductive Content where
  | Issue (c : IssueContent)
  | PullRequest (c : IssueContent)
  | DraftIssue (c : DraftContent)

/- Content::title, storage.rs lines 487-495 -/
def contentTitle : Content → String
  | .Issue c => c.title
  | .PullRequest c => c.title
  | .DraftIssue c => c.title

/- into_row, storage.rs lines 417-485: (repo, issue number, assignees, labels) -/
def contentQuad : Content → Value × Value × Value × Value
  | .Issue c =>
      (.Str c.name_with_owner, .I64 c.number,
       .List (c.assignees.map Value.Str), .List (c.labels.map Value.Str))
  | .PullRequest c =>
      (.Str c.name_with_owner, .I64 c.number,
       .List (c.assignees.map Value.Str), .List (c.labels.map Value.Str))
  | .DraftIssue c =>
      (.Null, .Null, .List (c.assignees.map Value.Str), .List [])

structure Item where
  id : String
  content : Option Content
  field_values : List ItemFieldValue

/- the row built for one fetched item, storage.rs lines 607-674; none when a
   cell computation hits an unreachable variant -/
def rowOfItem (fields : List Field) (item : Item) : Option (String × Row) := do
  let key := item.id
  let title := (item.content.map contentTitle).getD ""
  let (repo, issue, assignees, labels) :=
    match item.content with
    | some content => contentQuad content
    | none => (Value.Null, Value.Null, Value.Null, Value.Null)
  let reserved_columns : List Value :=
    [.Str key, repo, issue, .Str title, assignees, labels]
  let field_columns ← fields.mapM (fieldCell item.field_values)
  pure (key, reserved_columns ++ field_columns)

/- the pagination loop, storage.rs lines 589-606.  A Page is one response of
   the item-list query; fetchLoop consumes the responses in order, returning
   the accumulated nodes together with the transcript of the after cursors
   sent, one per remote call made. -/
structure Page (α : Type) where
  nodes : List α
  end_cursor : Option String
  has_next_page : Bool

def fetchLoop {α : Type} : Option String → List (Page α) → List α × List (Option String)
  | _, [] => ([], [])
  | after, page :: rest =>
    match page.end_cursor with
    | some end_cursor =>
        if page.has_next_page then
          let (items, calls) := fetchLoop (some end_cursor) rest
          (page.nodes ++ items, after :: calls)
        else
          (page.nodes, [after])
    | none => (page.nodes, [after])

/- gh.rs: the GraphQL transport wrapper around the gh process -/

inductive ObjectPath where
  | Number (n : Nat)
  | String (s : String)

structure GraphQLError where
  path : List ObjectPath
  message : String

structure GraphQLErrors where
  errors : List GraphQLError

/- GraphQLErrors::error_msgs, gh.rs lines 81-89 -/
def error_msgs (e : GraphQLErrors) : String :=
  String.intercalate " / " (e.errors.map GraphQLError.message)

structure GraphQLResponse (T : Type) where
  data : T
  errors : GraphQLErrors

/- the observable outcome of the spawned gh process together with the two
   serde decodes attempted on its stdout: stdout_errors is the decode into
   GraphQLErrors, stdout_data the decode into RespBody, each none when that
   decode fails -/
structure ProcessOutput (T : Type) where
  status_success : Bool
  status_code : Option Int
  stderr : String
  stdout_errors : Option GraphQLErrors
  stdout_data : Option T

inductive GhError where
  | TransportExit (code : Int) (stderr : String)
  | DecodeAnnotated (remote_msgs : String)
  | DecodeBoth

/- gh::graphql from the point the process output is available, gh.rs lines
   42-66.  Line 45 of the source builds the transport error with anyhow! but
   never returns it (there is no return or bail), so the constructed value is
   dropped and control falls through to the stdout decode; the dead let
   below embeds that dropped statement. -/
def graphql {T : Type} (out : ProcessOutput T) : Except GhError (GraphQLResponse T) :=
  let _dropped : Option GhError :=
    if out.status_success then none
    else some (.TransportExit (out.status_code.getD 0) out.stderr)
  match out.stdout_data with
  | some d => .ok ⟨d, out.stdout_errors.getD ⟨[]⟩⟩
  | none =>
    match out.stdout_errors with
    | some e => .error (.DecodeAnnotated (error_msgs e))
    | none => .error .DecodeBoth

/- write path, storage.rs update_data and delete_data, lines 877-1029 -/

inductive GlueSQLError where
  | StorageMsg (msg : String)
  | IncompatibleDataType (data_type : DataType) (value : Value)
  | ImpossibleCast
  | Storage (msg : String)

def digitsToNat (cs : List Char) : Nat :=
  cs.foldl (fun a c => a * 10 + (c.toNat - 48)) 0

/- decimal float parsing as used by the gluesql cast of a Str to Float
   (str::parse on f64), modelled on plain decimal literals: an optional
   sign, digits, and an optional fraction; any other shape fails.  No claim
   depends on the exotic cases (exponents, inf, nan). -/
def parseF64 (s : String) : Option Rat :=
  let cs := s.data
  let (sgn, body) : Int × List Char :=
    match cs with
    | '-' :: rest => (-1, rest)
    | '+' :: rest => (1, rest)
    | rest => (1, rest)
  let ip := body.takeWhile Char.isDigit
  let rest := body.drop ip.length
  let mk : List Char → List Char → Option Rat := fun ipart fpart =>
    if ipart.isEmpty && fpart.isEmpty then none
    else some ((sgn : Rat) *
      ((digitsToNat ipart : Rat) + (digitsToNat fpart : Rat) / ((10 : Rat) ^ fpart.length)))
  match rest with
  | [] => mk ip []
  | '.' :: frac => if frac.all Char.isDigit then mk ip frac else none
  | _ => none

/- Value::cast(&DataType::Float) followed by TryInto f64, as composed at
   storage.rs lines 944-949: booleans and integers widen, floats pass, a
   string is parsed, everything else fails -/
def castFloat : Value → Option Rat
  | .Bool b => some (if b then 1 else 0)
  | .I64 n => some (n : Rat)
  | .F64 q => some q
  | .Str s => parseF64 s
  | _ => none

/- String::from(&Value) in gluesql, used for the single-select and iteration
   write branches.  The List rendering is a placeholder: no claim exercises
   it. -/
def into_string : Value → String
  | .Null => "NULL"
  | .Bool b => if b then "TRUE" else "FALSE"
  | .I64 n => toString n
  | .F64 q => toString q
  | .Str s => s
  | .Date d => d
  | .List _ => "LIST"

/- Value::cast(&DataType::Text) followed by Into String, storage.rs lines
   951-956; the Text cast never fails in gluesql -/
def castText (v : Value) : Option String :=
  some (into_string v)

/- the value part of the update-item-field mutation variables, storage.rs
   lines 844-857; all absent is the explicit clear payload -/
structure ProjectV2FieldValue where
  date : Option String := none
  iteration_id : Option String := none
  number : Option Rat := none
  single_select_option_id : Option String := none
  text : Option String := none
  deriving DecidableEq

/- the variables of one update-item-field remote call, storage.rs lines
   835-842 -/
structure UpdateCall where
  project_id : String
  item_id : String
  field_id : String
  value : ProjectV2FieldValue

/- into_update_input, storage.rs lines 931-960: builds the per-type payload
   for a Normal field.  Only the Date arm can fail (line 940); the Float arm
   folds a cast failure into an absent number instead of failing. -/
def into_update_input (ty : DataType) (new_value : Value) : Option ProjectV2FieldValue :=
  match ty with
  | .Date =>
      (match new_value with
        | .Str s => some s
        | .Date d => some d
        | _ => none).map (fun d => { date := some d })
  | .Float => some { number := castFloat new_value }
  | .Text => some { text := castText new_value }
  | _ => none

/- the per-field-kind payload construction for one changed field column,
   storage.rs lines 921-997 -/
def fieldUpdateInput (field : Field) (new_value : Value) : Except GlueSQLError ProjectV2FieldValue :=
  if !(is_null new_value) then
    match field.kind with
    | .Normal ty =>
        match as_sql_type ty with
        | none => .error (.StorageMsg ("readonly column: " ++ fieldTypeDebug ty))
        | some dt =>
            match into_update_input dt new_value with
            | none => .error (.IncompatibleDataType dt new_value)
            | some input => .ok input
    | .SingleSelect options =>
        let new_str := into_string new_value
        match options.find? (fun opt => opt.name == new_str) with
        | some opt => .ok { single_select_option_id := some opt.id }
        | none => .error .ImpossibleCast
    | .Iteration _ _ _ _ => .ok { iteration_id := some (into_string new_value) }
  else
    .ok {}

/- a column pair (new value, cached value) is skipped by the update loops
   when both are Null or the two are equal, storage.rs lines 897-901 and
   914-918 -/
def pairSkipped (p : Value × Value) : Bool :=
  (is_null p.1 && is_null p.2) || p.1 == p.2

/- the reserved-column loop, storage.rs lines 891-908: walk the first six
   column pairs positionally; the first non-skipped pair aborts with a
   readonly-column error naming the schema column at that index -/
def reservedCheck (schema : Schema) : Nat → List (Value × Value) → Option GlueSQLError
  | _, [] => none
  | col_idx, (new_value, org_value) :: rest =>
    if is_null new_value && is_null org_value then
      reservedCheck schema (col_idx + 1) rest
    else if new_value == org_value then
      reservedCheck schema (col_idx + 1) rest
    else
      some (.StorageMsg ("readonly column: " ++
        (((schema.column_defs[col_idx]?).map ColumnDef.name).getD "")))

/- the field-column loop for one item, storage.rs lines 909-1006: each
   changed field builds a payload and issues one remote call; a payload
   failure or a failed remote call aborts immediately.  The remote oracle
   returns none on success and the error message otherwise; the second
   component is the transcript of calls issued, in order. -/
def processFields (remote : UpdateCall → Option String) (project_id item_id : String) :
    List ((Value × Value) × Field) → Except GlueSQLError Unit × List UpdateCall
  | [] => (.ok (), [])
  | ((new_value, org_value), field) :: rest =>
    if is_null new_value && is_null org_value then
      processFields remote project_id item_id rest
    else if new_value == org_value then
      processFields remote project_id item_id rest
    else
      match fieldUpdateInput field new_value with
      | .error e => (.error e, [])
      | .ok input =>
        let call : UpdateCall := ⟨project_id, item_id, field.id, input⟩
        match remote call with
        | some msg => (.error (.Storage msg), [call])
        | none =>
          let (res, calls) := processFields remote project_id item_id rest
          (res, call :: calls)

/- the body of the update loop for one batch entry that matched a cached
   row, storage.rs lines 891-1006: reserved columns first, then the field
   columns (each field column i is interpreted with cache.fields[i]) -/
def processItem (remote : UpdateCall → Option String) (cache : Cache) (schema : Schema)
    (item_id : String) (new_row org_row : Row) :
    Except GlueSQLError Unit × List UpdateCall :=
  match reservedCheck schema 0 ((new_row.take 6).zip (org_row.take 6)) with
  | some e => (.error e, [])
  | none =>
      processFields remote cache.project_id item_id
        (((new_row.drop 6).zip (org_row.drop 6)).zip cache.fields)

/- the batch loop of update_data, storage.rs lines 889-1008: entries whose
   item id matches no cached row are skipped; the first error aborts, keeping
   the transcript of the calls already issued -/
def updateRows (remote : UpdateCall → Option String) (cache : Cache) :
    List (String × Row) → Except GlueSQLError Unit × List UpdateCall
  | [] => (.ok (), [])
  | (item_id, new_row) :: rest =>
    match cache.items.find? (fun p => p.1 == item_id) with
    | none => updateRows remote cache rest
    | some (_, org_row) =>
      match processItem remote cache cache.items_schema item_id new_row org_row with
      | (.error e, calls) => (.error e, calls)
      | (.ok _, calls) =>
        let (res, calls2) := updateRows remote cache rest
        (res, calls ++ calls2)

/- StoreMut::update_data, storage.rs lines 877-1010.  The readonly-table
   check precedes the cache access; the cache slot is then taken and
   unwrapped, so an empty slot is a panic, modelled as none. -/
def update_data (remote : UpdateCall → Option String) (cacheSlot : Option Cache)
    (table_name : String) (rows : List (String × Row)) :
    Option (Except GlueSQLError Unit × List UpdateCall) :=
  if table_name != "items" then
    some (.error (.StorageMsg "readonly table"), [])
  else
    match cacheSlot with
    | none => none
    | some cache => some (updateRows remote cache rows)

/- the delete loop, storage.rs lines 1023-1027; each key issues one remote
   delete-item call carrying (project id, item id) -/
def deleteRows (remoteDelete : String × String → Option String) (cache : Cache) :
    List String → Except GlueSQLError Unit × List (String × String)
  | [] => (.ok (), [])
  | item_id :: rest =>
    let call := (cache.project_id, item_id)
    match remoteDelete call with
    | some msg => (.error (.Storage msg), [call])
    | none =>
      let (res, calls) := deleteRows remoteDelete cache rest
      (res, call :: calls)

/- StoreMut::delete_data, storage.rs lines 1012-1029, with the same
   readonly-table check, cache take-and-unwrap, and panic modelling as
   update_data -/
def delete_data (remoteDelete : String × String → Option String) (cacheSlot : Option Cache)
    (table_name : String) (keys : List String) :
    Option (Except GlueSQLError Unit × List (String × String)) :=
  if table_name != "items" then
    some (.error (.StorageMsg "readonly table"), [])
  else
    match cacheSlot with
    | none => none
    | some cache => some (deleteRows remoteDelete cache keys)

/- a batch entry is a no-op for updateRows: either its id matches no cached
   row, or every reserved and field column pair is skipped -/
def entryNoop (cache : Cache) (entry : String × Row) : Bool :=
  match cache.items.find? (fun p => p.1 == entry.1) with
  | none => true
  | some (_, org_row) =>
      ((entry.2.take 6).zip (org_row.take 6)).all pairSkipped &&
      (((entry.2.drop 6).zip (org_row.drop 6)).zip cache.fields).all
        (fun t => pairSkipped t.1)

end GhSql

namespace GhSql

/-- C8: for every field list, items_schema has exactly 6 + len(fields)
columns: the six reserved columns first, in order id, Repository, Issue,
Title, Assignees, Labels with fixed types (Text, Text, Int, Text, List,
List), followed by one nullable Text column per field in field-list
order. -/
theorem items_schema_columns (c : Cache) :
    c.items_schema.column_defs.length = 6 + c.fields.length ∧
    c.items_schema.column_defs.take 6 =
      [ ⟨"id", .Text, []⟩,
        ⟨"Repository", .Text, []⟩,
        ⟨"Issue", .Int, []⟩,
        ⟨"Title", .Text, []⟩,
        ⟨"Assignees", .List, []⟩,
        ⟨"Labels", .List, []⟩ ] ∧
    ∀ i : Nat, c.items_schema.column_defs[6 + i]? =
      (c.fields[i]?).map (fun f => ⟨f.name, .Text, [ColumnOption.Null]⟩) := by
  refine ⟨?_, ?_, ?_⟩
  · simp [Cache.items_schema]
    omega
  · simp [Cache.items_schema]
  · intro i
    simp only [Cache.items_schema]
    rw [List.getElem?_append_right (by simp)]
    simp [Nat.add_sub_cancel_left]

/-- C4 counterexample: the field-metadata filter does not keep every reserved
column name out of the produced field list.  A single-select field named
Title passes through untouched (the filter only inspects plain fields), and
even a plain field named Issue passes (Issue is not in the filtered name
list), so the produced field list can contain names that equal reserved
column names of the items table. -/
theorem list_fields_reserved_counterexample :
    (fieldsOfNodes [.SingleSelectNode "f1" "Title" []]).map Field.name = ["Title"] ∧
    (fieldsOfNodes [.NormalNode "f2" "Issue" .TEXT]).map Field.name = ["Issue"] ∧
    "Title" ∈ ["id", "Repository", "Issue", "Title", "Assignees", "Labels"] ∧
    "Issue" ∈ ["id", "Repository", "Issue", "Title", "Assignees", "Labels"] := by
  refine ⟨rfl, rfl, by simp, by simp⟩

/-- C4 amended: the defensive filter applies only to plain (Normal) fields
and only against the name list Title, Labels, Milestone, Assignees, Linked
Pull Requests, Reviewers, Repository: every Normal field produced by the
field-metadata fetch has a name outside that list, while iteration and
single-select fields are never filtered, and the names id and Issue are
never filtered either. -/
theorem list_fields_normal_filtered (nodes : List FieldNode) (f : Field)
    (hf : f ∈ fieldsOfNodes nodes) (t : FieldType) (hk : f.kind = .Normal t) :
    reserved_names.any (fun rname => rname == f.name) = false := by
  rw [fieldsOfNodes, List.mem_filterMap] at hf
  obtain ⟨node, _, hnode⟩ := hf
  cases node with
  | NormalNode id name data_type =>
      by_cases h : reserved_names.any (fun rname => rname == name) = true
      · simp [h] at hnode
      · simp [eq_false_of_ne_true h] at hnode
        rw [← hnode]
        exact eq_false_of_ne_true h
  | IterationNode id name duration start_day iterations completed_iterations =>
      simp at hnode
      rw [← hnode] at hk
      cases hk
  | SingleSelectNode id name options =>
      simp at hnode
      rw [← hnode] at hk
      cases hk

/-- C4 amended, witness at a concrete input. -/
theorem list_fields_normal_filtered_witness :
    reserved_names.any (fun rname => rname == "Points") = false :=
  list_fields_normal_filtered [.NormalNode "f3" "Points" .NUMBER]
    ⟨"f3", "Points", .Normal .NUMBER⟩ (by simp [fieldsOfNodes, reserved_names])
    .NUMBER rfl

/-- C3 counterexample: the single-select read path does not match the value
against the known option list and never falls back to the literal Unknown.
For a single-select field with an empty option list and a value reporting
the name X (which matches no known option), the cell is the string X, not
Unknown. -/
theorem single_select_read_counterexample :
    fieldCell [.SingleSelectValue "f1" (some "X")] ⟨"f1", "Status", .SingleSelect []⟩
      = some (.Str "X") ∧
    Value.Str "X" ≠ Value.Str "Unknown" := by
  refine ⟨rfl, by intro h; injection h with h2; simp at h2⟩

/-- C3 amended: for every fetched item and every SingleSelect field, when the
matching field-value node is a single-select value, the row cell is exactly
the name that value reports (regardless of the known option list), and Null
when the value reports no name; the Unknown fallback belongs to the
iteration read path, not the single-select one. -/
theorem single_select_read_cell (field_values : List ItemFieldValue) (field : Field)
    (options : List FieldOption) (fid : String) (reported : Option String)
    (hk : field.kind = .SingleSelect options)
    (hfind : field_values.find? (fun value => fieldIdOf value == field.id)
      = some (.SingleSelectValue fid reported)) :
    fieldCell field_values field =
      some (match reported with | some n => Value.Str n | none => Value.Null) := by
  cases reported <;> simp [fieldCell, hfind, hk, as_single_select]

/-- C3 amended, witness at a concrete input. -/
theorem single_select_read_cell_witness :
    fieldCell [.SingleSelectValue "f1" (some "Done")]
      ⟨"f1", "Status", .SingleSelect [⟨"o1", "Todo"⟩]⟩ = some (.Str "Done") :=
  single_select_read_cell [.SingleSelectValue "f1" (some "Done")]
    ⟨"f1", "Status", .SingleSelect [⟨"o1", "Todo"⟩]⟩ [⟨"o1", "Todo"⟩] "f1"
    (some "Done") rfl rfl

/-- C6: the item fetcher starts with after = none, appends each page of nodes
to the accumulator, and loops with after set to the returned cursor exactly
when the cursor is present and has-next-page is true; on the two-page
sequence (nodes1, cursor1, more = true), (nodes2, cursor2, more = false) it
returns nodes1 ++ nodes2, makes exactly two remote calls, and the second
call carries cursor1. -/
theorem pagination_two_pages {α : Type} (nodes1 nodes2 : List α) (cursor1 cursor2 : String) :
    fetchLoop none
      [⟨nodes1, some cursor1, true⟩, ⟨nodes2, some cursor2, false⟩]
      = (nodes1 ++ nodes2, [none, some cursor1]) := by
  simp [fetchLoop]

theorem pairSkipped_eq_false (nv ov : Value) (h : pairSkipped (nv, ov) = false) :
    (is_null nv && is_null ov) = false ∧ (nv == ov) = false := by
  rw [pairSkipped] at h
  refine ⟨?_, ?_⟩
  · cases hx : (is_null nv && is_null ov) <;> simp [hx] at h ⊢
  · cases hx : (nv == ov) <;> simp [hx] at h ⊢

theorem reservedCheck_of_all_skipped (schema : Schema) (k : Nat)
    (pairs : List (Value × Value)) (h : ∀ p ∈ pairs, pairSkipped p = true) :
    reservedCheck schema k pairs = none := by
  induction pairs generalizing k with
  | nil => rfl
  | cons p rest ih =>
    obtain ⟨nv, ov⟩ := p
    have hp := h _ (List.mem_cons_self _ _)
    rw [pairSkipped] at hp
    have hrest : ∀ q ∈ rest, pairSkipped q = true :=
      fun q hq => h q (List.mem_cons_of_mem _ hq)
    rw [reservedCheck]
    rcases Bool.or_eq_true_iff.mp hp with h1 | h2
    · rw [if_pos h1]
      exact ih (k + 1) hrest
    · by_cases h1 : (is_null nv && is_null ov) = true
      · rw [if_pos h1]
        exact ih (k + 1) hrest
      · rw [if_neg h1, if_pos h2]
        exact ih (k + 1) hrest

theorem reservedCheck_first_violation (schema : Schema) (k : Nat)
    (pfx : List (Value × Value)) (nv ov : Value) (tail : List (Value × Value))
    (hskip : ∀ p ∈ pfx, pairSkipped p = true) (hviol : pairSkipped (nv, ov) = false) :
    reservedCheck schema k (pfx ++ (nv, ov) :: tail)
      = some (.StorageMsg ("readonly column: " ++
          (((schema.column_defs[k + pfx.length]?).map ColumnDef.name).getD ""))) := by
  induction pfx generalizing k with
  | nil =>
    obtain ⟨h1, h2⟩ := pairSkipped_eq_false nv ov hviol
    rw [List.nil_append, reservedCheck, if_neg (by simp [h1]), if_neg (by simp [h2])]
    simp
  | cons p pfx ih =>
    obtain ⟨a, b⟩ := p
    have hp := hskip _ (List.mem_cons_self _ _)
    rw [pairSkipped] at hp
    have hpfx : ∀ q ∈ pfx, pairSkipped q = true :=
      fun q hq => hskip q (List.mem_cons_of_mem _ hq)
    rw [List.cons_append, reservedCheck]
    have hgoal := ih (k + 1) hpfx
    rcases Bool.or_eq_true_iff.mp hp with h1 | h2
    · rw [if_pos h1, hgoal]
      have : k + 1 + pfx.length = k + (pfx.length + 1) := by omega
      simp [this]
    · by_cases h1 : (is_null a && is_null b) = true
      · rw [if_pos h1, hgoal]
        have : k + 1 + pfx.length = k + (pfx.length + 1) := by omega
        simp [this]
      · rw [if_neg h1, if_pos h2, hgoal]
        have : k + 1 + pfx.length = k + (pfx.length + 1) := by omega
        simp [this]

theorem processFields_of_all_skipped (remote : UpdateCall → Option String)
    (project_id item_id : String) (triples : List ((Value × Value) × Field))
    (h : ∀ t ∈ triples, pairSkipped t.1 = true) :
    processFields remote project_id item_id triples = (.ok (), []) := by
  induction triples with
  | nil => rfl
  | cons t rest ih =>
    obtain ⟨⟨nv, ov⟩, field⟩ := t
    have hp := h _ (List.mem_cons_self _ _)
    rw [pairSkipped] at hp
    have hrest : ∀ q ∈ rest, pairSkipped q.1 = true :=
      fun q hq => h q (List.mem_cons_of_mem _ hq)
    rw [processFields]
    rcases Bool.or_eq_true_iff.mp hp with h1 | h2
    · rw [if_pos h1]
      exact ih hrest
    · by_cases h1 : (is_null nv && is_null ov) = true
      · rw [if_pos h1]
        exact ih hrest
      · rw [if_neg h1, if_pos h2]
        exact ih hrest

theorem updateRows_cons_noop (remote : UpdateCall → Option String) (cache : Cache)
    (entry : String × Row) (rest : List (String × Row))
    (h : entryNoop cache entry = true) :
    updateRows remote cache (entry :: rest) = updateRows remote cache rest := by
  obtain ⟨eid, erow⟩ := entry
  rw [updateRows]
  cases hfind : cache.items.find? (fun p => p.1 == eid) with
  | none => rfl
  | some pr =>
    obtain ⟨k, org_row⟩ := pr
    rw [entryNoop] at h
    simp only [hfind, Bool.and_eq_true, List.all_eq_true] at h
    obtain ⟨h1, h2⟩ := h
    unfold processItem
    simp only [reservedCheck_of_all_skipped cache.items_schema 0 _ h1,
      processFields_of_all_skipped remote cache.project_id eid _ h2]
    simp

/-- C2 divergence: when the spawned gh process exits with a non-zero status,
the client does not return the transport error it builds; the constructed
error is dropped and decoding proceeds on stdout as if the process had
succeeded.  At the concrete input where the process exits with code 1 and
stderr boom while stdout still decodes, the client returns the decoded
response, not a transport error. -/
theorem graphql_nonzero_status_still_decodes :
    graphql (T := Nat) ⟨false, some 1, "boom", some ⟨[]⟩, some 42⟩ = .ok ⟨42, ⟨[]⟩⟩ ∧
    graphql (T := Nat) ⟨false, some 1, "boom", none, none⟩ = .error .DecodeBoth := by
  exact ⟨rfl, rfl⟩

/-- C10: update_data and delete_data on the items table take the cache slot
and unwrap it unconditionally, so when the slot is empty the operation
panics (modelled by none) for every batch, instead of returning an error;
the readonly-table rejection for the other tables runs before the cache
access and still returns an error on an empty slot. -/
theorem write_on_empty_cache_panics (remote : UpdateCall → Option String)
    (remoteDelete : String × String → Option String)
    (rows : List (String × Row)) (keys : List String) :
    update_data remote none "items" rows = none ∧
    delete_data remoteDelete none "items" keys = none ∧
    update_data remote none "options" rows
      = some (.error (.StorageMsg "readonly table"), []) ∧
    delete_data remoteDelete none "iterations" keys
      = some (.error (.StorageMsg "readonly table"), []) := by
  exact ⟨rfl, rfl, rfl, rfl⟩

theorem updateRows_skip_unknown (remote : UpdateCall → Option String) (cache : Cache)
    (pre post : List (String × Row)) (entry : String × Row)
    (h : cache.items.find? (fun p => p.1 == entry.1) = none) :
    updateRows remote cache (pre ++ entry :: post) = updateRows remote cache (pre ++ post) := by
  induction pre with
  | nil =>
    obtain ⟨eid, erow⟩ := entry
    simp only [List.nil_append, updateRows, h]
  | cons e pre ih =>
    obtain ⟨eid2, erow2⟩ := e
    simp only [List.cons_append, updateRows, List.append_eq, ih]

/-- C9: a batch entry whose item id matches no cached row is silently
skipped: removing it from the batch changes neither the result nor the
transcript of remote calls, so the batch proceeds with the remaining
entries, no error is returned for the entry, and no remote call is issued
for it. -/
theorem update_unknown_id_skipped (remote : UpdateCall → Option String) (cache : Cache)
    (pre post : List (String × Row)) (entry : String × Row)
    (h : cache.items.find? (fun p => p.1 == entry.1) = none) :
    update_data remote (some cache) "items" (pre ++ entry :: post)
      = update_data remote (some cache) "items" (pre ++ post) := by
  simp [update_data, updateRows_skip_unknown remote cache pre post entry h]

/-- C9 witness at a concrete input. -/
theorem update_unknown_id_skipped_witness :
    update_data (fun _ => none) (some ⟨"P", [], [("I1", [])]⟩) "items" [("X", [])]
      = update_data (fun _ => none) (some ⟨"P", [], [("I1", [])]⟩) "items" [] :=
  update_unknown_id_skipped (fun _ => none) ⟨"P", [], [("I1", [])]⟩ [] [] ("X", []) rfl

theorem updateRows_reserved_violation (remote : UpdateCall → Option String) (cache : Cache)
    (pre rest : List (String × Row)) (item_id k : String) (new_row org_row : Row)
    (pfx : List (Value × Value)) (nv ov : Value) (tail : List (Value × Value))
    (hpre : ∀ e ∈ pre, entryNoop cache e = true)
    (hfind : cache.items.find? (fun p => p.1 == item_id) = some (k, org_row))
    (hzip : (new_row.take 6).zip (org_row.take 6) = pfx ++ (nv, ov) :: tail)
    (hskip : ∀ p ∈ pfx, pairSkipped p = true)
    (hviol : pairSkipped (nv, ov) = false) :
    updateRows remote cache (pre ++ (item_id, new_row) :: rest)
      = (.error (.StorageMsg ("readonly column: " ++
          (((cache.items_schema.column_defs[pfx.length]?).map ColumnDef.name).getD ""))), []) := by
  induction pre with
  | nil =>
    simp only [List.nil_append, updateRows, hfind]
    unfold processItem
    rw [hzip, reservedCheck_first_violation cache.items_schema 0 pfx nv ov tail hskip hviol]
    simp
  | cons e pre ih =>
    rw [List.cons_append,
      updateRows_cons_noop remote cache e _ (hpre e (List.mem_cons_self _ _))]
    exact ih fun x hx => hpre x (List.mem_cons_of_mem _ hx)

/-- C5: in an update batch on the items table, an entry whose new row
differs from its cached row in a reserved column (one of the first six
positions, the two values not both Null and not equal), reached after
entries that change nothing, aborts the whole batch with a readonly-column
error naming that column, and no remote call is issued: in particular a
batch changing only a reserved column issues zero remote calls. -/
theorem update_readonly_reserved (remote : UpdateCall → Option String) (cache : Cache)
    (pre rest : List (String × Row)) (item_id k : String) (new_row org_row : Row)
    (pfx : List (Value × Value)) (nv ov : Value) (tail : List (Value × Value))
    (hpre : ∀ e ∈ pre, entryNoop cache e = true)
    (hfind : cache.items.find? (fun p => p.1 == item_id) = some (k, org_row))
    (hzip : (new_row.take 6).zip (org_row.take 6) = pfx ++ (nv, ov) :: tail)
    (hskip : ∀ p ∈ pfx, pairSkipped p = true)
    (hviol : pairSkipped (nv, ov) = false) :
    update_data remote (some cache) "items" (pre ++ (item_id, new_row) :: rest)
      = some (.error (.StorageMsg ("readonly column: " ++
          (((cache.items_schema.column_defs[pfx.length]?).map ColumnDef.name).getD ""))), []) := by
  simp [update_data,
    updateRows_reserved_violation remote cache pre rest item_id k new_row org_row
      pfx nv ov tail hpre hfind hzip hskip hviol]

/-- C5 witness: changing Repository from a/b to c/d on an otherwise
unchanged row is rejected with a readonly-column error naming Repository,
and the transcript of remote calls is empty. -/
theorem update_readonly_reserved_witness :
    update_data (fun _ => none)
      (some ⟨"P", [], [("I1", [.Str "I1", .Str "a/b", .Null, .Str "t", .Null, .Null])]⟩)
      "items" [("I1", [.Str "I1", .Str "c/d", .Null, .Str "t", .Null, .Null])]
      = some (.error (.StorageMsg "readonly column: Repository"), []) := by
  have h := update_readonly_reserved (fun _ => none)
    ⟨"P", [], [("I1", [.Str "I1", .Str "a/b", .Null, .Str "t", .Null, .Null])]⟩
    [] [] "I1" "I1"
    [.Str "I1", .Str "c/d", .Null, .Str "t", .Null, .Null]
    [.Str "I1", .Str "a/b", .Null, .Str "t", .Null, .Null]
    [(.Str "I1", .Str "I1")] (.Str "c/d") (.Str "a/b")
    [(.Null, .Null), (.Str "t", .Str "t"), (.Null, .Null), (.Null, .Null)]
    (by intro e he; cases he)
    rfl rfl
    (by intro p hp; rw [List.mem_singleton] at hp; subst hp; rfl)
    rfl
  simpa [Cache.items_schema] using h

/-- C7: for an update of a SingleSelect field column with a non-Null changed
value, when the value (rendered to a string) equals the display name of
some option, the payload of the issued remote call carries that option id;
when it matches no option name, the update aborts with an impossible-cast
error and no remote call is issued for that field. -/
theorem single_select_update (remote : UpdateCall → Option String)
    (project_id item_id : String) (field : Field) (options : List FieldOption)
    (new_value org_value : Value) (rest : List ((Value × Value) × Field))
    (hk : field.kind = .SingleSelect options)
    (hnull : is_null new_value = false)
    (hne : (new_value == org_value) = false) :
    (∀ opt, options.find? (fun o => o.name == into_string new_value) = some opt →
      fieldUpdateInput field new_value = .ok { single_select_option_id := some opt.id } ∧
      (processFields remote project_id item_id
          (((new_value, org_value), field) :: rest)).2.head?
        = some ⟨project_id, item_id, field.id,
            { single_select_option_id := some opt.id }⟩) ∧
    (options.find? (fun o => o.name == into_string new_value) = none →
      processFields remote project_id item_id
          (((new_value, org_value), field) :: rest)
        = (.error .ImpossibleCast, [])) := by
  have hskip1 : (is_null new_value && is_null org_value) = false := by simp [hnull]
  constructor
  · intro opt hfound
    have hinput : fieldUpdateInput field new_value
        = .ok { single_select_option_id := some opt.id } := by
      simp [fieldUpdateInput, hnull, hk, hfound]
    refine ⟨hinput, ?_⟩
    simp only [processFields, hskip1, hne, Bool.false_eq_true, if_false, hinput]
    cases remote ⟨project_id, item_id, field.id, { single_select_option_id := some opt.id }⟩ <;>
      simp
  · intro hnone
    have hinput : fieldUpdateInput field new_value = .error .ImpossibleCast := by
      simp [fieldUpdateInput, hnull, hk, hnone]
    simp only [processFields, hskip1, hne, Bool.false_eq_true, if_false, hinput]

/-- C7 witness: with options Todo and Done, writing Done resolves to the
option id of Done in the payload, and writing a string matching no option
aborts with an impossible-cast error and an empty transcript. -/
theorem single_select_update_witness :
    fieldUpdateInput ⟨"f1", "Status", .SingleSelect [⟨"o1", "Todo"⟩, ⟨"o2", "Done"⟩]⟩
        (.Str "Done") = .ok { single_select_option_id := some "o2" } ∧
    processFields (fun _ => none) "P" "I1"
        [((.Str "NoSuch", .Null), ⟨"f1", "Status", .SingleSelect [⟨"o1", "Todo"⟩, ⟨"o2", "Done"⟩]⟩)]
      = (.error .ImpossibleCast, []) := by
  have h1 := single_select_update (fun _ => none) "P" "I1"
    ⟨"f1", "Status", .SingleSelect [⟨"o1", "Todo"⟩, ⟨"o2", "Done"⟩]⟩
    [⟨"o1", "Todo"⟩, ⟨"o2", "Done"⟩] (.Str "Done") .Null [] rfl rfl rfl
  have h2 := single_select_update (fun _ => none) "P" "I1"
    ⟨"f1", "Status", .SingleSelect [⟨"o1", "Todo"⟩, ⟨"o2", "Done"⟩]⟩
    [⟨"o1", "Todo"⟩, ⟨"o2", "Done"⟩] (.Str "NoSuch") .Null [] rfl rfl rfl
  exact ⟨(h1.1 ⟨"o2", "Done"⟩ rfl).1, h2.2 rfl⟩

/-- C1 counterexample: for a Normal(number) field, a changed new value whose
cast to a floating-point number fails does not produce an incompatible-data-
type error and does not suppress the remote call: at the concrete value Str
abc (whose cast fails) the batch entry succeeds and one remote call is
issued, carrying an absent number. -/
theorem number_cast_failure_counterexample :
    castFloat (.Str "abc") = none ∧
    processFields (fun _ => none) "P" "I1"
      [((.Str "abc", .Null), ⟨"f1", "Points", .Normal .NUMBER⟩)]
      = (.ok (), [⟨"P", "I1", "f1", { number := none }⟩]) := by
  exact ⟨rfl, rfl⟩

/-- C1 amended: for a Normal(number) field column whose non-Null new value
differs from the cached value and whose cast to a floating-point number
fails, the update does not error; it issues the remote update call for that
field with an absent number, which is the same clear payload sent for a
Null value. -/
theorem number_cast_failure_sends_clear (remote : UpdateCall → Option String)
    (project_id item_id : String) (field : Field)
    (new_value org_value : Value) (rest : List ((Value × Value) × Field))
    (hk : field.kind = .Normal .NUMBER)
    (hcast : castFloat new_value = none)
    (hnull : is_null new_value = false)
    (hne : (new_value == org_value) = false) :
    fieldUpdateInput field new_value = .ok { number := none } ∧
    (processFields remote project_id item_id
        (((new_value, org_value), field) :: rest)).2.head?
      = some ⟨project_id, item_id, field.id, { number := none }⟩ := by
  have hinput : fieldUpdateInput field new_value = .ok { number := none } := by
    simp [fieldUpdateInput, hnull, hk, as_sql_type, into_update_input, hcast]
  refine ⟨hinput, ?_⟩
  have hskip1 : (is_null new_value && is_null org_value) = false := by simp [hnull]
  simp only [processFields, hskip1, hne, Bool.false_eq_true, if_false, hinput]
  cases remote ⟨project_id, item_id, field.id, { number := none }⟩ <;> simp

/-- C1 amended, witness at a concrete input. -/
theorem number_cast_failure_sends_clear_witness :
    fieldUpdateInput ⟨"f1", "Points", .Normal .NUMBER⟩ (.Str "oops")
        = .ok { number := none } ∧
    (processFields (fun _ => none) "P" "I1"
        [((.Str "oops", .Null), ⟨"f1", "Points", .Normal .NUMBER⟩)]).2.head?
      = some ⟨"P", "I1", "f1", { number := none }⟩ :=
  number_cast_failure_sends_clear (fun _ => none) "P" "I1"
    ⟨"f1", "Points", .Normal .NUMBER⟩ (.Str "oops") .Null [] rfl rfl rfl rfl

end GhSql
